import Mathlib

/-!
# Verification of node-libnftables (context lifecycle and result views)

Shallow embedding of the repository's two layers:

* `src/src/napi_libnftables.cc` — the N-API binding class `LibNftables`
  (`initContext`, `runCmd`, `setOutputFlags`, `getOutputFlags`, `setDryRun`,
  `getDryRun`).
* `src/lib/index.js` — the JavaScript wrapper `LibNftablesContext`
  (constructor, `refreshContext`, `runCmd`, `asString`, `asArray`, `asMap`,
  `asObject`, `setOutputFlags`, `setDryRun`).

The wrapped engine (libnftables) is an opaque collaborator.  Its handle is
modelled by `NftCtx` (flags bitmask, dry-run bit, the two capture buffers) and
its behaviour by a `NativeEnv` of oracles: whether `nft_ctx_new` yields a
non-null handle, whether enabling each capture buffer succeeds, how the engine
answers a dry-run request (the engine may silently refuse), and what
`nft_run_cmd_from_buffer` returns for a command (status plus the contents of
the output and error buffers afterwards).  `nft_ctx_output_set_flags` replaces
the whole bitmask and `nft_ctx_output_get_flags` reads it back; this is the
collaborator contract the binding relies on.

N-API error semantics: `Napi::Error::ThrowAsJavaScriptException` only records
a pending JavaScript exception via `napi_throw`; it never unwinds the C++
function.  Methods that `return` right after throwing (runCmd, setDryRun)
therefore stop, while code after a throw that lacks a `return`
(setOutputFlags, initContext) keeps executing, including further plain C calls
into libnftables.  The embedding reproduces this.  JavaScript-level `throw`
aborts the surrounding statement, so `this._lastResponse = this._runCmd(x)`
leaves `_lastResponse` untouched when `_runCmd` throws.

Machine integers: the `unsigned int` flags bitmask is a `Nat` kept below
`2 ^ 32`; `Napi::Number::Int32Value` on an integral JS number is ToInt32, and
the subsequent implicit conversion to `unsigned int` makes the contribution of
an argument `n` equal to `n % 2 ^ 32` (Euclidean remainder).
-/

namespace NodeLibnftables

/-- Spec error taxonomy (section 7 of the spec).  The binding throws
`Napi::TypeError` where the spec says `ValidationError`, plain `Napi::Error`
for `CommandError` / `ResourceError` / `StateError`, and the JS `JSON.parse`
`SyntaxError` corresponds to `FormatError`. -/
inductive NftError where
  | ResourceError (msg : String)
  | CommandError (msg : String)
  | ValidationError (msg : String)
  | StateError (msg : String)
  | FormatError (msg : String)
deriving DecidableEq

/-- Model of the opaque `struct nft_ctx *` handle owned by one binding
instance: the output-flags bitmask, the dry-run bit, and the two buffers that
`nft_ctx_buffer_output` / `nft_ctx_buffer_error` capture into. -/
structure NftCtx where
  flags : Nat
  dryRun : Bool
  outputBuffer : String
  errorBuffer : String
deriving DecidableEq

/-- `nft_ctx_new(NFT_CTX_DEFAULT)`: a fresh handle has default (zero) flags,
dry-run off and empty buffers. -/
def nft_ctx_default : NftCtx :=
  { flags := 0, dryRun := false, outputBuffer := "", errorBuffer := "" }

/-- Collaborator contract: `nft_ctx_output_get_flags` reads the bitmask. -/
def nft_ctx_output_get_flags (h : NftCtx) : Nat := h.flags

/-- Collaborator contract: `nft_ctx_output_set_flags` replaces the whole
bitmask (no merging). -/
def nft_ctx_output_set_flags (h : NftCtx) (f : Nat) : NftCtx := { h with flags := f }

/-- Collaborator contract: `nft_ctx_get_dry_run` reads the dry-run bit. -/
def nft_ctx_get_dry_run (h : NftCtx) : Bool := h.dryRun

/-- Result of one `nft_run_cmd_from_buffer` call: the status code and the
contents of the output and error buffers after the call. -/
structure EngineReply where
  rs : Int
  outBuf : String
  errBuf : String

/-- The engine-side behaviour the binding cannot observe in advance:
whether `nft_ctx_new` returns a non-null handle, whether each
`nft_ctx_buffer_*` call returns 0, the dry-run state actually adopted by
`nft_ctx_set_dry_run` (the spec notes the engine may silently refuse the
change in some build configurations), and the reply of
`nft_run_cmd_from_buffer` for a command submitted on a given handle state. -/
structure NativeEnv where
  allocOk : Bool
  bufferOutputOk : Bool
  bufferErrorOk : Bool
  applyDryRun : Bool → Bool
  runEngine : NftCtx → String → EngineReply

/-- A value passed from JavaScript into a variadic binding method.  Only
numberhood matters to the binding (`IsNumber`); integral numbers are modelled
by their mathematical value. -/
inductive JsVal where
  | num (n : Int)
  | str (s : String)
  | boolV (b : Bool)
  | undef
  | nullV
deriving DecidableEq

/-- `info[i].IsNumber()`. -/
def JsVal.isNumber : JsVal → Bool
  | .num _ => true
  | _ => false

/-- The contribution of one argument to the `flags |= info[i].As<Napi::Number>().Int32Value()`
accumulation: ToInt32 of an integral number followed by conversion to
`unsigned int` is the Euclidean remainder mod `2 ^ 32`; a non-number leaves
`Int32Value` returning its failure default 0 (a pending exception was thrown
just before). -/
def JsVal.toUint32 : JsVal → Nat
  | .num n => (n % 4294967296).toNat
  | _ => 0

/-- Outcome of `LibNftables::initContext` (`_initContext`).  `threw` records
the pending exception together with the handle the member `ctx_` holds
afterwards (the fresh handle is assigned before the buffer checks);
`nullDeref` marks the undefined behaviour reached when `nft_ctx_new` returned
null and the following plain C calls dereference the null pointer — no
JavaScript error is produced on that path. -/
inductive InitResult where
  | ok (h : NftCtx)
  | threw (h : NftCtx) (e : NftError)
  | nullDeref
deriving DecidableEq

/-- `LibNftables::initContext`: reads the current flags off the old handle (0
if none), frees it, allocates a new handle, restores the old flags when they
are non-zero (`if (!curFlags == 0)` parses as `(!curFlags) == 0`, i.e.
`curFlags != 0`), then enables both capture buffers, throwing on a non-zero
return.  The two buffer checks lack an early `return` after the throw, but
the only observable is the first pending exception.  There is no null check
on the `nft_ctx_new` result: with a null handle the very next libnftables
call dereferences null. -/
def initContext (env : NativeEnv) (old : Option NftCtx) : InitResult :=
  let curFlags : Nat :=
    match old with
    | some h => nft_ctx_output_get_flags h
    | none => 0
  if env.allocOk then
    let fresh := nft_ctx_default
    let h1 := if curFlags ≠ 0 then nft_ctx_output_set_flags fresh curFlags else fresh
    if !env.bufferOutputOk then
      InitResult.threw h1 (NftError.ResourceError "output buffer could not be enabled")
    else if !env.bufferErrorOk then
      InitResult.threw h1 (NftError.ResourceError "error buffer could not be enabled")
    else InitResult.ok h1
  else InitResult.nullDeref

/-- `LibNftables::setOutputFlags` (`_setOutputFlags`) on a live handle.
Returns the handle state after the call and the pending exception, if any.
Both throw sites lack a `return`, so the function always falls through to
`nft_ctx_output_set_flags(ctx_, flags)` with whatever `flags` the loop
accumulated: zero arguments accumulate 0, a non-number argument contributes
the 0 failure default of `Int32Value`. -/
def setOutputFlagsNative (h : NftCtx) (args : List JsVal) : NftCtx × Option NftError :=
  let pending : Option NftError :=
    if args.isEmpty then
      some (NftError.ValidationError "One or more integer arguments required")
    else if args.any (fun a => !a.isNumber) then
      some (NftError.ValidationError "Integer arguments only")
    else none
  let flags := args.foldl (fun acc a => acc ||| a.toUint32) 0
  (nft_ctx_output_set_flags h flags, pending)

/-- `LibNftables::setDryRun` (`_setDryRun`) on a live handle for a boolean
argument: request the mode, read the actual mode back, and throw when the
engine did not adopt the requested mode; on success return the read-back
value. -/
def setDryRunNative (env : NativeEnv) (h : NftCtx) (requested : Bool) :
    NftCtx × Except NftError Bool :=
  let actual := env.applyDryRun requested
  let h' := { h with dryRun := actual }
  if actual ≠ requested then
    (h', Except.error (NftError.StateError "Dry Run mode change failed"))
  else (h', Except.ok actual)

/-- The JavaScript wrapper object `LibNftablesContext`: the native handle
member `ctx_` (`none` models a null pointer), `this._lastResponse`, and
`this._dryRun` (unset until the first successful `setDryRun`). -/
structure Context where
  ctx : Option NftCtx
  lastResponse : String
  dryRunField : Option Bool
deriving DecidableEq

/-- Observable outcome of one wrapper method call: normal return of `this`
(with the new object state), a thrown error (the object state is still
reachable through the caller's reference), or a native crash from
dereferencing a null handle. -/
inductive Outcome where
  | ok (c : Context)
  | threw (c : Context) (e : NftError)
  | crashed
deriving DecidableEq

/-- Outcome of `new LibNftablesContext()`: a constructed object, a propagated
exception (no object is returned), or a native crash. -/
inductive ConstructResult where
  | ok (c : Context)
  | threw (e : NftError)
  | crashed
deriving DecidableEq

/-- The constructor: `super(); this._lastResponse = ''; this._initContext();`.
The binding constructor itself only nulls `ctx_`, so `initContext` starts
from `none`. -/
def Context.construct (env : NativeEnv) : ConstructResult :=
  match initContext env none with
  | InitResult.ok h => ConstructResult.ok { ctx := some h, lastResponse := "", dryRunField := none }
  | InitResult.threw _ e => ConstructResult.threw e
  | InitResult.nullDeref => ConstructResult.crashed

/-- `refreshContext = () => { this._initContext(); return this; }` — it never
touches `_lastResponse`. -/
def Context.refreshContext (env : NativeEnv) (c : Context) : Outcome :=
  match initContext env c.ctx with
  | InitResult.ok h' => Outcome.ok { c with ctx := some h' }
  | InitResult.threw h' e => Outcome.threw { c with ctx := some h' } e
  | InitResult.nullDeref => Outcome.crashed

/-- `runCmd = (nftCommand) => { this._lastResponse = this._runCmd(nftCommand); return this; }`
over `LibNftables::runCmd`: submit the command, and on a non-zero status throw
an error carrying `nft_ctx_get_error_buffer` and return before producing a
value — the JS assignment to `_lastResponse` then never happens.  On success
the output buffer contents become the new last response. -/
def Context.runCmd (env : NativeEnv) (c : Context) (cmd : String) : Outcome :=
  match c.ctx with
  | none => Outcome.crashed
  | some h =>
    let reply := env.runEngine h cmd
    let h' := { h with outputBuffer := reply.outBuf, errorBuffer := reply.errBuf }
    if reply.rs ≠ 0 then
      Outcome.threw { c with ctx := some h' } (NftError.CommandError reply.errBuf)
    else
      Outcome.ok { c with ctx := some h', lastResponse := reply.outBuf }

/-- `setOutputFlags = (...flags) => { this._setOutputFlags(...flags); return this; }`. -/
def Context.setOutputFlags (c : Context) (args : List JsVal) : Outcome :=
  match c.ctx with
  | none => Outcome.crashed
  | some h =>
    match setOutputFlagsNative h args with
    | (h', some e) => Outcome.threw { c with ctx := some h' } e
    | (h', none) => Outcome.ok { c with ctx := some h' }

/-- `setDryRun = (dry = true) => { this._dryRun = this._setDryRun(dry); return this; }`.
`arg = none` models an omitted argument, defaulted to `true`. -/
def Context.setDryRun (env : NativeEnv) (c : Context) (arg : Option Bool) : Outcome :=
  match c.ctx with
  | none => Outcome.crashed
  | some h =>
    let requested := arg.getD true
    match setDryRunNative env h requested with
    | (h', Except.ok actual) =>
      Outcome.ok { c with ctx := some h', dryRunField := some actual }
    | (h', Except.error e) => Outcome.threw { c with ctx := some h' } e

/-- `asString = () => { return this._lastResponse; }`. -/
def Context.asString (c : Context) : String := c.lastResponse

/-- `LibNftables::getOutputFlags` (`_getOutputFlags`): read-through to the
native handle. -/
def Context.getOutputFlags (c : Context) : Option Nat :=
  c.ctx.map nft_ctx_output_get_flags

/-! ## Result views: `asArray` -/

/-- The code points trimmed by the ECMAScript `String.prototype.trim` and
matched by `\s` in a `u`-flagged regular expression: WhiteSpace (tab, VT, FF,
space, NBSP, ZWNBSP, the Zs category) plus LineTerminator (LF, CR, LS, PS). -/
def isJsWhitespace (c : Char) : Bool :=
  decide (c = ' ' ∨ c = '\t' ∨ c = '\n' ∨ c = '\r' ∨ c = '\x0b' ∨ c = '\x0c' ∨
    c.val = 0xa0 ∨ c.val = 0x1680 ∨ (0x2000 ≤ c.val ∧ c.val ≤ 0x200a) ∨
    c.val = 0x2028 ∨ c.val = 0x2029 ∨ c.val = 0x202f ∨ c.val = 0x205f ∨
    c.val = 0x3000 ∨ c.val = 0xfeff)

/-- `this._lastResponse.replace(/[\t{}]/gu, '')`: delete every tab and brace
character. -/
def removeTabsBraces (l : List Char) : List Char :=
  l.filter (fun c => !(c == '\t' || c == '\x7b' || c == '\x7d'))

/-- `.trim()`: drop JS whitespace from both ends of the whole buffer. -/
def jsTrim (l : List Char) : List Char :=
  ((l.dropWhile isJsWhitespace).reverse.dropWhile isJsWhitespace).reverse

/-- `.split(/\n+/u)` — `String.prototype.split` with a regex splits at every
match even without the `g` flag, and `\n+` greedily eats a maximal run of
newlines at each split point; an empty input yields `[""]`, and a match
touching either end contributes an empty piece there.  Fuelled so that it is
structurally recursive (any fuel above the input length is exact). -/
def splitRunsAux : Nat → List Char → List (List Char)
  | 0, l => [l]
  | _ + 1, [] => [[]]
  | fuel + 1, c :: rest =>
    if c == '\n' then
      [] :: splitRunsAux fuel (rest.dropWhile (fun x => x == '\n'))
    else
      match splitRunsAux fuel rest with
      | [] => [[c]]
      | h :: t => (c :: h) :: t

/-- `.split(/\n+/u)` on a whole character list. -/
def splitRuns (l : List Char) : List (List Char) := splitRunsAux (l.length + 1) l

/-- Character-level `asArray` pipeline from `src/lib/index.js`:
`replace(/[\t{}]/gu, '').trim().split(/\n+/u)` followed by
`.filter(Boolean)` (only the empty string is a falsy string). -/
def asArrayChars (l : List Char) : List (List Char) :=
  (splitRuns (jsTrim (removeTabsBraces l))).filter (fun s => !s.isEmpty)

/-- `asArray()`: the last response as a list of lines. -/
def Context.asArray (c : Context) : List String :=
  (asArrayChars c.lastResponse.toList).map String.mk

/-- Modelled from the spec's wording for `as line sequence()`: "splits on
one-or-more consecutive newline characters, and discards resulting empty
entries" — the sequence of maximal newline-free segments, here extracted
directly (fuelled to stay structurally recursive). -/
def newlineSegmentsAux : Nat → List Char → List (List Char)
  | 0, _ => []
  | _ + 1, [] => []
  | fuel + 1, c :: rest =>
    if c == '\n' then newlineSegmentsAux fuel rest
    else
      (c :: rest.takeWhile (fun x => !(x == '\n'))) ::
        newlineSegmentsAux fuel (rest.dropWhile (fun x => !(x == '\n')))

/-- Maximal newline-free segments of a character list, in order. -/
def newlineSegments (l : List Char) : List (List Char) :=
  newlineSegmentsAux (l.length + 1) l

/-- The spec's description of `as line sequence()`: remove tabs and braces,
trim the whole buffer, then take the maximal newline-free segments. -/
def Context.asArraySpec (c : Context) : List String :=
  (newlineSegments (jsTrim (removeTabsBraces c.lastResponse.toList))).map String.mk

/-! ## Result views: `asMap` -/

/-- The literal `handle`. -/
def handlePat : List Char := ['h', 'a', 'n', 'd', 'l', 'e']

/-- `rule.match(/handle/)` is truthy exactly when `handle` occurs as a
substring. -/
def containsSeq (pat : List Char) : List Char → Bool
  | [] => pat.isEmpty
  | c :: rest => pat.isPrefixOf (c :: rest) || containsSeq pat rest

/-- Try to match `/\s+#\s+handle\s+/u` at the head of `l`; on success return
the length of the (greedy, hence maximal) match.  `\s` and the literals `#`,
`handle` are disjoint, so greedy matching is deterministic: each `\s+` must
be the maximal whitespace run at its position. -/
def matchHandleAt (l : List Char) : Option Nat :=
  let w1 := l.takeWhile isJsWhitespace
  if w1.isEmpty then none
  else
    match l.drop w1.length with
    | '#' :: r2 =>
      let w2 := r2.takeWhile isJsWhitespace
      if w2.isEmpty then none
      else
        let r3 := r2.drop w2.length
        if handlePat.isPrefixOf r3 then
          let r4 := r3.drop 6
          let w3 := r4.takeWhile isJsWhitespace
          if w3.isEmpty then none
          else some (w1.length + 1 + w2.length + 6 + w3.length)
        else none
    | _ => none

/-- Leftmost match of `/\s+#\s+handle\s+/u`: start index and length. -/
def findHandleMatch : List Char → Option (Nat × Nat)
  | [] => none
  | c :: rest =>
    match matchHandleAt (c :: rest) with
    | some n => some (0, n)
    | none =>
      match findHandleMatch rest with
      | some (i, n) => some (i + 1, n)
      | none => none

/-- `rule.split(/\s+#\s+handle\s+/u)`: cut at every match, left to right.
Each match is at least 10 characters long, so fuel `length + 1` is never
exhausted. -/
def jsSplitHandleAux : Nat → List Char → List (List Char)
  | 0, l => [l]
  | fuel + 1, l =>
    match findHandleMatch l with
    | none => [l]
    | some (i, n) => l.take i :: jsSplitHandleAux fuel (l.drop (i + n))

/-- `rule.split(/\s+#\s+handle\s+/u)` on a whole character list. -/
def jsSplitHandle (l : List Char) : List (List Char) :=
  jsSplitHandleAux (l.length + 1) l

/-- `Map.prototype.set`: overwrite an existing key in place, else append. -/
def mapSet (m : List (String × String)) (k v : String) : List (String × String) :=
  if m.any (fun p => p.fst == k) then
    m.map (fun p => if p.fst == k then (k, v) else p)
  else m ++ [(k, v)]

/-- One iteration of the `asMap` loop body:
`if (rule.match(/handle/)) { let pieces = rule.split(handleExp); if (pieces.length > 1) { handles.set(pieces[1], pieces[0]); } }`. -/
def asMapStep (m : List (String × String)) (rule : String) : List (String × String) :=
  if containsSeq handlePat rule.toList then
    let pieces := jsSplitHandle rule.toList
    if 1 < pieces.length then
      mapSet m (String.mk (pieces.getD 1 [])) (String.mk (pieces.getD 0 []))
    else m
  else m

/-- `asMap()`: fold the loop body over `asArray()`, starting from an empty
map (entries listed in insertion order, as a JS `Map` does). -/
def Context.asMap (c : Context) : List (String × String) :=
  (Context.asArray c).foldl asMapStep []

/-- The spec's description of `as handle mapping()`: keep only the lines of
`as line sequence()` containing the substring `handle`, split each on the
pattern, and exactly when the split yields more than one part record an entry
keyed by the second part with the first part as value. -/
def asMapSpecStep (m : List (String × String)) (rule : String) : List (String × String) :=
  let pieces := jsSplitHandle rule.toList
  if 1 < pieces.length then
    mapSet m (String.mk (pieces.getD 1 [])) (String.mk (pieces.getD 0 []))
  else m

/-- Spec-side `as handle mapping()`. -/
def Context.asMapSpec (c : Context) : List (String × String) :=
  ((Context.asArray c).filter (fun rule => containsSeq handlePat rule.toList)).foldl
    asMapSpecStep []

/-! ## Result views: `asObject` (JSON.parse) -/

/-- Parsed JSON tree.  Number tokens are kept as their lexemes — none of the
verified properties depend on numeric value. -/
inductive Json where
  | null
  | bool (b : Bool)
  | num (lexeme : String)
  | str (s : String)
  | arr (xs : List Json)
  | obj (kvs : List (String × Json))

/-- JSON insignificant whitespace. -/
def jsonWs (c : Char) : Bool :=
  c == ' ' || c == '\t' || c == '\n' || c == '\r'

/-- Skip JSON whitespace. -/
def skipJsonWs (l : List Char) : List Char := l.dropWhile jsonWs

/-- Hexadecimal digit value. -/
def hexVal (c : Char) : Option Nat :=
  if '0' ≤ c ∧ c ≤ '9' then some (c.toNat - '0'.toNat)
  else if 'a' ≤ c ∧ c ≤ 'f' then some (c.toNat - 'a'.toNat + 10)
  else if 'A' ≤ c ∧ c ≤ 'F' then some (c.toNat - 'A'.toNat + 10)
  else none

/-- Decode the four hex digits of a `\uXXXX` escape. -/
def parseHex4 : List Char → Option (Char × List Char)
  | a :: b :: c :: d :: rest =>
    match hexVal a, hexVal b, hexVal c, hexVal d with
    | some x, some y, some z, some w =>
      some (Char.ofNat (((x * 16 + y) * 16 + z) * 16 + w), rest)
    | _, _, _, _ => none
  | _ => none

/-- Body of a JSON string after the opening quote: plain characters up to the
closing quote, with the standard escapes (unpaired surrogates from `\u`
escapes are not reconstructed — irrelevant to the verified properties). -/
def parseStringChars : Nat → List Char → Option (List Char × List Char)
  | 0, _ => none
  | _ + 1, [] => none
  | fuel + 1, c :: rest =>
    if c = '"' then some ([], rest)
    else if c = '\\' then
      match rest with
      | [] => none
      | e :: rest2 =>
        let dec : Option (Char × List Char) :=
          if e = '"' then some ('"', rest2)
          else if e = '\\' then some ('\\', rest2)
          else if e = '/' then some ('/', rest2)
          else if e = 'b' then some ('\x08', rest2)
          else if e = 'f' then some ('\x0c', rest2)
          else if e = 'n' then some ('\n', rest2)
          else if e = 'r' then some ('\r', rest2)
          else if e = 't' then some ('\t', rest2)
          else if e = 'u' then parseHex4 rest2
          else none
        match dec with
        | none => none
        | some (ch, rest3) =>
          match parseStringChars fuel rest3 with
          | some (s, r) => some (ch :: s, r)
          | none => none
    else if c.val < 0x20 then none
    else
      match parseStringChars fuel rest with
      | some (s, r) => some (c :: s, r)
      | none => none

/-- Optional fraction part of a JSON number. -/
def lexFrac (l : List Char) : List Char × List Char :=
  match l with
  | '.' :: r =>
    let ds := r.takeWhile Char.isDigit
    if ds.isEmpty then ([], l) else ('.' :: ds, r.drop ds.length)
  | _ => ([], l)

/-- Optional exponent part of a JSON number. -/
def lexExp (l : List Char) : List Char × List Char :=
  match l with
  | c :: r =>
    if c = 'e' ∨ c = 'E' then
      let sr : List Char × List Char :=
        match r with
        | s :: r' => if s = '+' ∨ s = '-' then ([s], r') else ([], r)
        | [] => ([], r)
      let ds := sr.snd.takeWhile Char.isDigit
      if ds.isEmpty then ([], l) else (c :: (sr.fst ++ ds), sr.snd.drop ds.length)
    else ([], l)
  | [] => ([], l)

/-- Lex a JSON number token `-? (0 | [1-9][0-9]*) frac? exp?`. -/
def parseNumberLex (l : List Char) : Option (List Char × List Char) :=
  let sr : List Char × List Char :=
    match l with
    | '-' :: r => (['-'], r)
    | _ => ([], l)
  match sr.snd with
  | [] => none
  | c :: rest1 =>
    if c = '0' then
      let fr := lexFrac rest1
      let er := lexExp fr.snd
      some (sr.fst ++ '0' :: (fr.fst ++ er.fst), er.snd)
    else if c.isDigit then
      let ds := sr.snd.takeWhile Char.isDigit
      let l2 := sr.snd.drop ds.length
      let fr := lexFrac l2
      let er := lexExp fr.snd
      some (sr.fst ++ ds ++ fr.fst ++ er.fst, er.snd)
    else none

mutual

/-- Recursive-descent JSON value parser (fuelled). -/
def parseJsonValue : Nat → List Char → Option (Json × List Char)
  | 0, _ => none
  | fuel + 1, l =>
    match skipJsonWs l with
    | [] => none
    | c :: rest =>
      if c = 'n' then
        if ['u', 'l', 'l'].isPrefixOf rest then some (Json.null, rest.drop 3) else none
      else if c = 't' then
        if ['r', 'u', 'e'].isPrefixOf rest then some (Json.bool true, rest.drop 3) else none
      else if c = 'f' then
        if ['a', 'l', 's', 'e'].isPrefixOf rest then some (Json.bool false, rest.drop 4)
        else none
      else if c = '"' then
        match parseStringChars (rest.length + 1) rest with
        | some (s, r) => some (Json.str (String.mk s), r)
        | none => none
      else if c = '[' then
        match skipJsonWs rest with
        | ']' :: r => some (Json.arr [], r)
        | _ =>
          match parseArrayItems fuel rest with
          | some (xs, r) => some (Json.arr xs, r)
          | none => none
      else if c = '\x7b' then
        match skipJsonWs rest with
        | '\x7d' :: r => some (Json.obj [], r)
        | _ =>
          match parseObjectItems fuel rest with
          | some (kvs, r) => some (Json.obj kvs, r)
          | none => none
      else
        match parseNumberLex (c :: rest) with
        | some (ds, r) => some (Json.num (String.mk ds), r)
        | none => none

/-- Comma-separated JSON array items up to the closing bracket. -/
def parseArrayItems : Nat → List Char → Option (List Json × List Char)
  | 0, _ => none
  | fuel + 1, l =>
    match parseJsonValue fuel l with
    | none => none
    | some (v, r) =>
      match skipJsonWs r with
      | ',' :: r2 =>
        match parseArrayItems fuel r2 with
        | some (xs, r3) => some (v :: xs, r3)
        | none => none
      | ']' :: r2 => some ([v], r2)
      | _ => none

/-- Comma-separated JSON object members up to the closing brace. -/
def parseObjectItems : Nat → List Char → Option (List (String × Json) × List Char)
  | 0, _ => none
  | fuel + 1, l =>
    match skipJsonWs l with
    | '"' :: r =>
      match parseStringChars (r.length + 1) r with
      | none => none
      | some (k, r2) =>
        match skipJsonWs r2 with
        | ':' :: r3 =>
          match parseJsonValue fuel r3 with
          | none => none
          | some (v, r4) =>
            match skipJsonWs r4 with
            | ',' :: r5 =>
              match parseObjectItems fuel r5 with
              | some (kvs, r6) => some ((String.mk k, v) :: kvs, r6)
              | none => none
            | '\x7d' :: r5 => some ([(String.mk k, v)], r5)
            | _ => none
        | _ => none
    | _ => none

end

/-- `JSON.parse`: parse one value and require only whitespace to remain.
The fuel bound is generous; every nested value consumes input, so it is never
the limiting factor on inputs of this length. -/
def jsonParse (s : String) : Except String Json :=
  match parseJsonValue (4 * s.length + 4) s.toList with
  | none => Except.error "Unexpected end of JSON input"
  | some (v, rest) =>
    if (skipJsonWs rest).isEmpty then Except.ok v
    else Except.error "Unexpected non-whitespace character after JSON"

/-- `asObject = () => { return JSON.parse(this._lastResponse); }`; a
`SyntaxError` from `JSON.parse` is the spec's `FormatError`. -/
def Context.asObject (c : Context) : Except NftError Json :=
  match jsonParse c.lastResponse with
  | Except.ok v => Except.ok v
  | Except.error m => Except.error (NftError.FormatError m)

/-! ## Concrete fixtures for witnesses and counterexamples -/

/-- A JS value is representable as a 32-bit non-negative integer. -/
def representable32 (v : JsVal) : Bool :=
  match v with
  | .num n => decide (0 ≤ n ∧ n < 4294967296)
  | _ => false

/-- An engine environment where everything succeeds; commands are answered
with status 0 and a fixed listing. -/
def envOk : NativeEnv :=
  { allocOk := true, bufferOutputOk := true, bufferErrorOk := true,
    applyDryRun := fun b => b,
    runEngine := fun _ _ => { rs := 0, outBuf := "table ip t\n", errBuf := "" } }

/-- An engine environment that rejects every command with status 1 and the
error text `boom`. -/
def envCmdFail : NativeEnv :=
  { allocOk := true, bufferOutputOk := true, bufferErrorOk := true,
    applyDryRun := fun b => b,
    runEngine := fun _ _ => { rs := 1, outBuf := "", errBuf := "boom" } }

/-- An engine environment whose `nft_ctx_new` returns null. -/
def envAllocFail : NativeEnv :=
  { allocOk := false, bufferOutputOk := true, bufferErrorOk := true,
    applyDryRun := fun b => b,
    runEngine := fun _ _ => { rs := 0, outBuf := "", errBuf := "" } }

/-- An engine environment that silently refuses dry-run mode (always reads
back `false`). -/
def envRefuseDry : NativeEnv :=
  { allocOk := true, bufferOutputOk := true, bufferErrorOk := true,
    applyDryRun := fun _ => false,
    runEngine := fun _ _ => { rs := 0, outBuf := "", errBuf := "" } }

/-- A constructed context holding a previous response. -/
def ctxPrev : Context := { ctx := some nft_ctx_default, lastResponse := "prev", dryRunField := none }

/-- A constructed context whose handle carries flags bitmask 4. -/
def ctxFlags4 : Context :=
  { ctx := some { flags := 4, dryRun := false, outputBuffer := "", errorBuffer := "" },
    lastResponse := "", dryRunField := none }

/-- A constructed context holding a small multi-line response. -/
def ctxLines : Context :=
  { ctx := some nft_ctx_default, lastResponse := "a\n\tb\x7b\x7d\n\nc", dryRunField := none }

/-- A handle holding the stale flags bitmask 3. -/
def hFlags3 : NftCtx := { flags := 3, dryRun := false, outputBuffer := "", errorBuffer := "" }

/-- A constructed context over `hFlags3`. -/
def ctxHFlags3 : Context := { ctx := some hFlags3, lastResponse := "", dryRunField := none }

/-- A well-used handle: flags 4, dry-run on, non-empty buffers. -/
def hBusy : NftCtx := { flags := 4, dryRun := true, outputBuffer := "o", errorBuffer := "e" }

/-- A constructed context over `hBusy` with a recorded response. -/
def ctxBusy : Context := { ctx := some hBusy, lastResponse := "prev", dryRunField := some true }

end NodeLibnftables

namespace NodeLibnftables

/-! ## Helper lemmas about the line-splitting pipeline -/

/-- Membership survives `takeWhile`. -/
theorem mem_of_mem_takeWhile' {p : Char → Bool} {l : List Char} {a : Char}
    (h : a ∈ l.takeWhile p) : a ∈ l :=
  List.Sublist.mem h (List.takeWhile_sublist p)

/-- Membership survives `dropWhile`. -/
theorem mem_of_mem_dropWhile' {p : Char → Bool} {l : List Char} {a : Char}
    (h : a ∈ l.dropWhile p) : a ∈ l :=
  List.Sublist.mem h (List.dropWhile_sublist p)

/-- Characters of the trimmed buffer come from the buffer. -/
theorem mem_of_mem_jsTrim {a : Char} {l : List Char} (h : a ∈ jsTrim l) : a ∈ l := by
  unfold jsTrim at h
  rw [List.mem_reverse] at h
  have h2 := mem_of_mem_dropWhile' h
  rw [List.mem_reverse] at h2
  exact mem_of_mem_dropWhile' h2

/-- If `takeWhile` takes nothing, `dropWhile` drops nothing. -/
theorem dropWhile_eq_self_of_takeWhile_eq_nil {p : Char → Bool} {l : List Char}
    (h : l.takeWhile p = []) : l.dropWhile p = l := by
  cases l with
  | nil => rfl
  | cons c r =>
    rw [List.takeWhile_cons] at h
    rw [List.dropWhile_cons]
    by_cases hc : p c
    · simp [hc] at h
    · simp [hc]

/-- `newlineSegmentsAux` does not depend on the fuel once the fuel exceeds
the input length. -/
theorem newlineSegmentsAux_congr :
    ∀ (n₁ n₂ : Nat) (l : List Char), l.length < n₁ → l.length < n₂ →
      newlineSegmentsAux n₁ l = newlineSegmentsAux n₂ l := by
  intro n₁
  induction n₁ with
  | zero => intro n₂ l h1 _; omega
  | succ m ih =>
    intro n₂ l h1 h2
    match n₂, l with
    | 0, l => omega
    | k + 1, [] => rfl
    | k + 1, c :: rest =>
      simp only [newlineSegmentsAux]
      by_cases hc : c == '\n'
      · simp only [hc, if_true]
        exact ih k rest (by simpa using h1) (by simpa using h2)
      · simp only [hc, Bool.false_eq_true, if_false]
        have hd : (rest.dropWhile (fun x => !(x == '\n'))).length ≤ rest.length :=
          List.Sublist.length_le (List.dropWhile_sublist _)
        have e := ih k (rest.dropWhile (fun x => !(x == '\n')))
          (by simp at h1; omega) (by simp at h2; omega)
        rw [e]

/-- One-step unfolding of `newlineSegments`. -/
theorem newlineSegments_cons (c : Char) (rest : List Char) :
    newlineSegments (c :: rest) =
      if c == '\n' then newlineSegments rest
      else (c :: rest.takeWhile (fun x => !(x == '\n'))) ::
        newlineSegments (rest.dropWhile (fun x => !(x == '\n'))) := by
  unfold newlineSegments
  simp only [List.length_cons, newlineSegmentsAux]
  by_cases hc : c == '\n'
  · simp only [hc, if_true]
  · simp only [hc, if_false]
    have hd : (rest.dropWhile (fun x => !(x == '\n'))).length ≤ rest.length :=
      List.Sublist.length_le (List.dropWhile_sublist _)
    rw [newlineSegmentsAux_congr (rest.length + 1) ((rest.dropWhile (fun x => !(x == '\n'))).length + 1)
      (rest.dropWhile (fun x => !(x == '\n'))) (by omega) (by omega)]

/-- Leading newlines do not change the maximal newline-free segments. -/
theorem newlineSegments_dropNl (l : List Char) :
    newlineSegments (l.dropWhile (fun x => x == '\n')) = newlineSegments l := by
  induction l with
  | nil => rfl
  | cons c rest ih =>
    rw [List.dropWhile_cons]
    by_cases hc : c == '\n'
    · simp only [hc, if_true]
      rw [ih, newlineSegments_cons]
      simp [hc]
    · simp only [hc, Bool.false_eq_true, if_false]

/-- Every segment is non-empty and draws its characters from the input. -/
theorem newlineSegmentsAux_mem :
    ∀ (n : Nat) (l : List Char) (s : List Char), s ∈ newlineSegmentsAux n l →
      s ≠ [] ∧ ∀ a ∈ s, a ∈ l := by
  intro n
  induction n with
  | zero => intro l s hs; cases hs
  | succ m ih =>
    intro l s hs
    match l with
    | [] => cases hs
    | c :: rest =>
      simp only [newlineSegmentsAux] at hs
      by_cases hc : c == '\n'
      · rw [if_pos hc] at hs
        obtain ⟨hne, hsub⟩ := ih rest s hs
        exact ⟨hne, fun a ha => List.mem_cons_of_mem c (hsub a ha)⟩
      · rw [if_neg hc] at hs
        rcases List.mem_cons.mp hs with hhead | htail
        · subst hhead
          refine ⟨by simp, ?_⟩
          intro a ha
          rcases List.mem_cons.mp ha with h1 | h2
          · exact h1 ▸ List.mem_cons_self c rest
          · exact List.mem_cons_of_mem c (mem_of_mem_takeWhile' h2)
        · obtain ⟨hne, hsub⟩ := ih (rest.dropWhile (fun x => !(x == '\n'))) s htail
          exact ⟨hne, fun a ha => List.mem_cons_of_mem c (mem_of_mem_dropWhile' (hsub a ha))⟩

/-- Every segment of `newlineSegments` is non-empty and draws its characters
from the input. -/
theorem newlineSegments_mem (l : List Char) (s : List Char) (hs : s ∈ newlineSegments l) :
    s ≠ [] ∧ ∀ a ∈ s, a ∈ l :=
  newlineSegmentsAux_mem (l.length + 1) l s hs

/-- With enough fuel, `splitRunsAux` starts with the maximal newline-free
prefix of the input as its first piece. -/
theorem splitRunsAux_head :
    ∀ (n : Nat) (l : List Char), l.length < n →
      ∃ t, splitRunsAux n l = l.takeWhile (fun x => !(x == '\n')) :: t := by
  intro n
  induction n with
  | zero => intro l h; omega
  | succ m ih =>
    intro l h
    match l with
    | [] => exact ⟨[], rfl⟩
    | c :: rest =>
      simp only [splitRunsAux]
      by_cases hc : c == '\n'
      · refine ⟨splitRunsAux m (rest.dropWhile (fun x => x == '\n')), ?_⟩
        rw [if_pos hc, List.takeWhile_cons]
        simp [hc]
      · obtain ⟨t, ht⟩ := ih rest (by simpa using h)
        refine ⟨t, ?_⟩
        rw [if_neg hc, ht, List.takeWhile_cons]
        simp [hc]

/-- The non-empty pieces of the JS `split(/\n+/u)` are exactly the maximal
newline-free segments. -/
theorem filter_splitRunsAux :
    ∀ (n : Nat) (l : List Char), l.length < n →
      (splitRunsAux n l).filter (fun s => !s.isEmpty) = newlineSegments l := by
  intro n
  induction n with
  | zero => intro l h; omega
  | succ m ih =>
    intro l h
    match l with
    | [] => rfl
    | c :: rest =>
      rw [newlineSegments_cons]
      simp only [splitRunsAux]
      by_cases hc : c == '\n'
      · rw [if_pos hc, if_pos hc, List.filter_cons]
        simp only [List.isEmpty_nil, Bool.not_true, Bool.false_eq_true, if_false]
        have hd : (rest.dropWhile (fun x => x == '\n')).length ≤ rest.length :=
          List.Sublist.length_le (List.dropWhile_sublist _)
        rw [ih (rest.dropWhile (fun x => x == '\n')) (by simp at h; omega)]
        exact newlineSegments_dropNl rest
      · rw [if_neg hc, if_neg hc]
        obtain ⟨t, ht⟩ := splitRunsAux_head m rest (by simpa using h)
        rw [ht, List.filter_cons]
        simp only [List.isEmpty_cons, Bool.not_false, if_true]
        have ihr := ih rest (by simpa using h)
        rw [ht, List.filter_cons] at ihr
        by_cases hw : (rest.takeWhile (fun x => !(x == '\n'))).isEmpty
        · -- the first piece of `rest` is empty: `rest` is empty or starts with a newline
          rw [if_neg (by simp [hw])] at ihr
          have hwnil : rest.takeWhile (fun x => !(x == '\n')) = [] := by simpa using hw
          have hdrop : rest.dropWhile (fun x => !(x == '\n')) = rest :=
            dropWhile_eq_self_of_takeWhile_eq_nil hwnil
          rw [hdrop, ihr]
        · -- the first piece of `rest` is `d :: _` with `d ≠ '\n'`
          rw [if_pos (by simp at hw ⊢; simpa using hw)] at ihr
          match hrest : rest with
          | [] => simp at hw
          | d :: r' =>
            have hd : (d == '\n') = false := by
              by_contra hdc
              have : (d == '\n') = true := by
                cases hdd : (d == '\n') with
                | false => exact absurd hdd hdc
                | true => rfl
              rw [List.takeWhile_cons] at hw
              simp [this] at hw
            rw [newlineSegments_cons] at ihr
            rw [if_neg (by simp [hd])] at ihr
            rw [List.takeWhile_cons, if_pos (by simp [hd])] at ihr
            have tail_eq : List.filter (fun s => !s.isEmpty) t =
                newlineSegments (r'.dropWhile (fun x => !(x == '\n'))) :=
              List.cons_injective.eq_iff.mp ihr
            rw [List.dropWhile_cons, if_pos (by simp [hd]), tail_eq]

/-- Folding over a filtered list is folding with a guard. -/
theorem foldl_filter_guard {α β : Type} (p : α → Bool) (f : β → α → β) :
    ∀ (l : List α) (init : β),
      (l.filter p).foldl f init = l.foldl (fun b a => if p a then f b a else b) init := by
  intro l
  induction l with
  | nil => intro init; rfl
  | cons x xs ih =>
    intro init
    rw [List.filter_cons]
    by_cases hx : p x
    · rw [if_pos hx, List.foldl_cons, List.foldl_cons, if_pos hx, ih]
    · rw [if_neg hx, List.foldl_cons, if_neg hx, ih]

/-! ## Claim theorems (C1–C4, C7–C10) -/

/-- C1: for every command string, if the engine rejects the command
(`nft_run_cmd_from_buffer` returns non-zero) then `runCmd` fails with
`CommandError` carrying the engine's error-buffer text, and Last Response is
not mutated: `asString()` after the failed call returns exactly the same text
as before the call. -/
theorem c1_runCmd_engine_rejection (env : NativeEnv) (c : Context) (h : NftCtx) (cmd : String)
    (hh : c.ctx = some h) (hrej : (env.runEngine h cmd).rs ≠ 0) :
    ∃ h' : NftCtx,
      Context.runCmd env c cmd =
        Outcome.threw { c with ctx := some h' }
          (NftError.CommandError (env.runEngine h cmd).errBuf) ∧
      Context.asString { c with ctx := some h' } = Context.asString c := by
  refine ⟨{ h with outputBuffer := (env.runEngine h cmd).outBuf,
                   errorBuffer := (env.runEngine h cmd).errBuf }, ?_, rfl⟩
  unfold Context.runCmd
  rw [hh]
  simp [hrej]

/-- Witness for C1 at a concrete rejecting engine and context. -/
theorem c1_witness :
    (ctxPrev.ctx = some nft_ctx_default ∧
      (envCmdFail.runEngine nft_ctx_default "add bogus nonsense").rs ≠ 0) ∧
    (∃ h' : NftCtx,
      Context.runCmd envCmdFail ctxPrev "add bogus nonsense" =
        Outcome.threw { ctxPrev with ctx := some h' }
          (NftError.CommandError (envCmdFail.runEngine nft_ctx_default "add bogus nonsense").errBuf) ∧
      Context.asString { ctxPrev with ctx := some h' } = Context.asString ctxPrev) :=
  ⟨⟨rfl, by decide⟩,
    c1_runCmd_engine_rejection envCmdFail ctxPrev nft_ctx_default "add bogus nonsense" rfl
      (by decide)⟩

/-- C2 counterexample: `-1` is a number but not a 32-bit non-negative
integer; the code accepts it (ToInt32 then unsigned conversion yields
4294967295) instead of rejecting with `ValidationError` as the claim
requires. -/
theorem c2_counterexample :
    representable32 (JsVal.num (-1)) = false ∧
    Context.setOutputFlags ctxPrev [JsVal.num (-1)] =
      Outcome.ok { ctxPrev with
        ctx := some { flags := 4294967295, dryRun := false, outputBuffer := "", errorBuffer := "" } } := by
  constructor
  · decide
  · decide

/-- C2 (amended): `setOutputFlags(...flags)` rejects with `ValidationError`
if and only if zero arguments are given or some argument is not a number;
every call whose arguments are one or more numbers succeeds, replaces the
bitmask with the union of the arguments' 32-bit values, and returns the
context for chaining. -/
theorem c2_amended_setOutputFlags (c : Context) (h : NftCtx) (args : List JsVal)
    (hh : c.ctx = some h) :
    ((∃ c' m, Context.setOutputFlags c args = Outcome.threw c' (NftError.ValidationError m)) ↔
      (args = [] ∨ ∃ a ∈ args, a.isNumber = false)) ∧
    ((args ≠ [] ∧ ∀ a ∈ args, a.isNumber = true) →
      Context.setOutputFlags c args =
        Outcome.ok { c with
          ctx := some { h with flags := args.foldl (fun acc a => acc ||| a.toUint32) 0 } }) := by
  unfold Context.setOutputFlags setOutputFlagsNative
  rw [hh]
  by_cases hA : args.isEmpty
  · have hA' : args = [] := by simpa using hA
    subst hA'
    simp
  · have hA' : args ≠ [] := by simpa using hA
    by_cases hB : args.any (fun a => !a.isNumber)
    · obtain ⟨a, ha, hna⟩ := List.any_eq_true.mp hB
      have hna' : a.isNumber = false := by simpa using hna
      simp only [hA, Bool.false_eq_true, if_false, hB, if_true]
      constructor
      · constructor
        · intro _
          exact Or.inr ⟨a, ha, hna'⟩
        · intro _
          exact ⟨_, _, rfl⟩
      · rintro ⟨-, hall⟩
        have := hall a ha
        rw [this] at hna'
        cases hna'
    · have hB' : args.any (fun a => !a.isNumber) = false := by simpa using hB
      simp only [hA, Bool.false_eq_true, if_false, hB', if_false]
      constructor
      · constructor
        · rintro ⟨c', m, hcm⟩
          cases hcm
        · rintro (h1 | ⟨a, ha, hna⟩)
          · exact absurd h1 hA'
          · have := List.any_eq_false.mp hB' a ha
            simp [hna] at this
      · intro _
        rfl

/-- Witness for C2 (amended) at two concrete number arguments. -/
theorem c2_amended_witness :
    (ctxPrev.ctx = some nft_ctx_default) ∧
    (((∃ c' m, Context.setOutputFlags ctxPrev [JsVal.num 4, JsVal.num 16] =
        Outcome.threw c' (NftError.ValidationError m)) ↔
      ([JsVal.num 4, JsVal.num 16] = ([] : List JsVal) ∨
        ∃ a ∈ [JsVal.num 4, JsVal.num 16], a.isNumber = false)) ∧
    (([JsVal.num 4, JsVal.num 16] ≠ ([] : List JsVal) ∧
        ∀ a ∈ [JsVal.num 4, JsVal.num 16], a.isNumber = true) →
      Context.setOutputFlags ctxPrev [JsVal.num 4, JsVal.num 16] =
        Outcome.ok { ctxPrev with
          ctx := some { nft_ctx_default with
            flags := [JsVal.num 4, JsVal.num 16].foldl (fun acc a => acc ||| a.toUint32) 0 } })) :=
  ⟨rfl, c2_amended_setOutputFlags ctxPrev nft_ctx_default [JsVal.num 4, JsVal.num 16] rfl⟩

/-- C3 (code bug): a `setOutputFlags()` call with zero arguments fails with
`ValidationError`, yet the engine call is still made — `ThrowAsJavaScriptException`
does not unwind the function and there is no `return` after the throw, so
`nft_ctx_output_set_flags(ctx_, 0)` runs and clears the previously held
bitmask 4 to 0 instead of leaving it untouched. -/
theorem c3_validation_failure_still_calls_engine :
    Context.setOutputFlags ctxFlags4 [] =
      Outcome.threw
        { ctx := some { flags := 0, dryRun := false, outputBuffer := "", errorBuffer := "" },
          lastResponse := "", dryRunField := none }
        (NftError.ValidationError "One or more integer arguments required") ∧
    Context.getOutputFlags
        { ctx := some { flags := 0, dryRun := false, outputBuffer := "", errorBuffer := "" },
          lastResponse := "", dryRunField := none } ≠
      Context.getOutputFlags ctxFlags4 := by
  constructor
  · decide
  · decide

/-- C4 (code bug): when `nft_ctx_new` yields a null handle, `initContext`
performs no null check; the next libnftables calls dereference the null
pointer (undefined behaviour, no `ResourceError` is raised), both inside the
constructor and on any later recreate. -/
theorem c4_null_allocation_not_resource_error :
    initContext envAllocFail
        (some { flags := 4, dryRun := false, outputBuffer := "", errorBuffer := "" }) =
      InitResult.nullDeref ∧
    Context.construct envAllocFail = ConstructResult.crashed := by
  constructor
  · rfl
  · rfl

/-- C7: a successful `setOutputFlags(A, B)` on any prior handle state leaves
the native bitmask at exactly `A ||| B` — no residual bits — and reading the
flags back returns that union. -/
theorem c7_setOutputFlags_bitwise_union (c : Context) (h : NftCtx) (A B : Nat)
    (hh : c.ctx = some h) (hA : A < 4294967296) (hB : B < 4294967296) :
    Context.setOutputFlags c [JsVal.num (A : Int), JsVal.num (B : Int)] =
      Outcome.ok { c with ctx := some { h with flags := A ||| B } } ∧
    Context.getOutputFlags { c with ctx := some { h with flags := A ||| B } } =
      some (A ||| B) := by
  have ha : (((A : Int)) % 4294967296).toNat = A := by omega
  have hb : (((B : Int)) % 4294967296).toNat = B := by omega
  constructor
  · unfold Context.setOutputFlags setOutputFlagsNative
    rw [hh]
    simp [JsVal.isNumber, JsVal.toUint32, nft_ctx_output_set_flags, ha, hb]
  · simp [Context.getOutputFlags, nft_ctx_output_get_flags]

/-- Witness for C7 at `A = 4`, `B = 16` over a handle with stale flags 3. -/
theorem c7_witness :
    (ctxHFlags3.ctx = some hFlags3 ∧ (4 : Nat) < 4294967296 ∧ (16 : Nat) < 4294967296) ∧
    (Context.setOutputFlags ctxHFlags3 [JsVal.num ((4 : Nat) : Int), JsVal.num ((16 : Nat) : Int)] =
        Outcome.ok { ctxHFlags3 with ctx := some { hFlags3 with flags := (4 : Nat) ||| 16 } } ∧
      Context.getOutputFlags { ctxHFlags3 with ctx := some { hFlags3 with flags := (4 : Nat) ||| 16 } } =
        some ((4 : Nat) ||| 16)) :=
  ⟨⟨rfl, by decide, by decide⟩,
    c7_setOutputFlags_bitwise_union ctxHFlags3 hFlags3 4 16 rfl (by decide) (by decide)⟩

/-- C8: `setDryRun` (default argument `true`) requests the mode, re-reads the
actual mode, and fails with `StateError` exactly when the read-back value
differs from the requested one; on success the read-back value equals the
requested value and the context is returned for chaining. -/
theorem c8_setDryRun_readback (env : NativeEnv) (c : Context) (h : NftCtx) (arg : Option Bool)
    (hh : c.ctx = some h) :
    (env.applyDryRun (arg.getD true) = arg.getD true →
      Context.setDryRun env c arg =
        Outcome.ok { c with ctx := some { h with dryRun := arg.getD true },
                            dryRunField := some (arg.getD true) }) ∧
    (env.applyDryRun (arg.getD true) ≠ arg.getD true →
      Context.setDryRun env c arg =
        Outcome.threw { c with ctx := some { h with dryRun := env.applyDryRun (arg.getD true) } }
          (NftError.StateError "Dry Run mode change failed")) := by
  unfold Context.setDryRun setDryRunNative
  rw [hh]
  constructor
  · intro heq
    simp [heq]
  · intro hne
    simp [hne]

/-- Witness for C8: an engine that refuses dry-run (always reads back
`false`) makes the omitted-argument call (requested `true`) fail with
`StateError`. -/
theorem c8_witness :
    (ctxPrev.ctx = some nft_ctx_default) ∧
    ((envRefuseDry.applyDryRun (Option.getD none true) = Option.getD none true →
        Context.setDryRun envRefuseDry ctxPrev none =
          Outcome.ok { ctxPrev with
                       ctx := some { nft_ctx_default with dryRun := Option.getD none true },
                       dryRunField := some (Option.getD none true) }) ∧
      (envRefuseDry.applyDryRun (Option.getD none true) ≠ Option.getD none true →
        Context.setDryRun envRefuseDry ctxPrev none =
          Outcome.threw { ctxPrev with
                          ctx := some { nft_ctx_default with
                                        dryRun := envRefuseDry.applyDryRun (Option.getD none true) } }
            (NftError.StateError "Dry Run mode change failed"))) :=
  ⟨rfl, c8_setDryRun_readback envRefuseDry ctxPrev nft_ctx_default none rfl⟩

/-- C9: `refreshContext()` performs create/recreate — the old handle is
released and replaced by a fresh one carrying the previously recorded flags
bitmask (restored whenever it is non-zero; a fresh handle already has 0) —
and Last Response is unchanged: `asString()` afterwards returns the same
text as before. -/
theorem c9_refreshContext (env : NativeEnv) (c : Context) (h : NftCtx)
    (hh : c.ctx = some h) (ha : env.allocOk = true)
    (hb : env.bufferOutputOk = true) (hc : env.bufferErrorOk = true) :
    Context.refreshContext env c =
      Outcome.ok { c with
        ctx := some { flags := h.flags, dryRun := false, outputBuffer := "", errorBuffer := "" } } ∧
    Context.asString
        { c with
          ctx := some { flags := h.flags, dryRun := false, outputBuffer := "", errorBuffer := "" } } =
      Context.asString c := by
  refine ⟨?_, rfl⟩
  unfold Context.refreshContext initContext
  rw [hh]
  by_cases hf : h.flags = 0
  · simp [ha, hb, hc, nft_ctx_output_get_flags, nft_ctx_output_set_flags, nft_ctx_default, hf]
  · simp [ha, hb, hc, nft_ctx_output_get_flags, nft_ctx_output_set_flags, nft_ctx_default, hf]

/-- Witness for C9 on a handle with flags 4 and a recorded response. -/
theorem c9_witness :
    (ctxBusy.ctx = some hBusy ∧
      envOk.allocOk = true ∧ envOk.bufferOutputOk = true ∧ envOk.bufferErrorOk = true) ∧
    (Context.refreshContext envOk ctxBusy =
        Outcome.ok { ctxBusy with
                     ctx := some { flags := hBusy.flags, dryRun := false, outputBuffer := "",
                                   errorBuffer := "" } } ∧
      Context.asString { ctxBusy with
                         ctx := some { flags := hBusy.flags, dryRun := false, outputBuffer := "",
                                       errorBuffer := "" } } =
        Context.asString ctxBusy) :=
  ⟨⟨rfl, rfl, rfl, rfl⟩, c9_refreshContext envOk ctxBusy hBusy rfl rfl rfl rfl⟩

/-- C10: immediately after construction Last Response is the empty string:
`asString()` returns `""`, `asArray()` the empty array, `asMap()` an empty
map, and `asObject()` fails — the empty string is not valid JSON. -/
theorem c10_initial_state (env : NativeEnv) (ha : env.allocOk = true)
    (hb : env.bufferOutputOk = true) (hc : env.bufferErrorOk = true) :
    ∃ c0 : Context,
      Context.construct env = ConstructResult.ok c0 ∧
      Context.asString c0 = "" ∧
      Context.asArray c0 = [] ∧
      Context.asMap c0 = [] ∧
      ∃ m, Context.asObject c0 = Except.error (NftError.FormatError m) := by
  refine ⟨{ ctx := some nft_ctx_default, lastResponse := "", dryRunField := none },
    ?_, rfl, by decide, by decide, ⟨"Unexpected end of JSON input", rfl⟩⟩
  unfold Context.construct initContext
  simp [ha, hb, hc, nft_ctx_default]

/-- Witness for C10 with a fully functional engine environment. -/
theorem c10_witness :
    (envOk.allocOk = true ∧ envOk.bufferOutputOk = true ∧ envOk.bufferErrorOk = true) ∧
    (∃ c0 : Context,
      Context.construct envOk = ConstructResult.ok c0 ∧
      Context.asString c0 = "" ∧
      Context.asArray c0 = [] ∧
      Context.asMap c0 = [] ∧
      ∃ m, Context.asObject c0 = Except.error (NftError.FormatError m)) :=
  ⟨⟨rfl, rfl, rfl⟩, c10_initial_state envOk rfl rfl rfl⟩


/-- C5: for every value of Last Response, `asArray()` is exactly the pipeline
"delete all tab and brace characters, trim the whole buffer, split on runs of
one or more newlines, drop empty entries" — i.e. the maximal newline-free
segments of the cleaned, trimmed buffer in engine output order — and
consequently no returned line is empty or contains a tab or a brace. -/
theorem c5_asArray_pipeline (c : Context) :
    Context.asArray c = Context.asArraySpec c ∧
    ∀ s ∈ Context.asArray c,
      s ≠ "" ∧ ∀ ch ∈ s.toList, ch ≠ '\t' ∧ ch ≠ '\x7b' ∧ ch ≠ '\x7d' := by
  have h1 : Context.asArray c = Context.asArraySpec c := by
    unfold Context.asArray Context.asArraySpec asArrayChars splitRuns
    rw [filter_splitRunsAux _ _ (Nat.lt_succ_self _)]
  refine ⟨h1, ?_⟩
  intro s hs
  rw [h1] at hs
  unfold Context.asArraySpec at hs
  rw [List.mem_map] at hs
  obtain ⟨s', hs', hmk⟩ := hs
  obtain ⟨hne, hsub⟩ := newlineSegments_mem _ s' hs'
  constructor
  · intro hemp
    apply hne
    have : (String.mk s').toList = ("" : String).toList := by rw [hmk, hemp]
    simpa using this
  · intro ch hch
    have hch' : ch ∈ s' := by
      rw [← hmk] at hch
      simpa [String.toList] using hch
    have h2 : ch ∈ jsTrim (removeTabsBraces c.lastResponse.toList) := hsub ch hch'
    have h3 : ch ∈ removeTabsBraces c.lastResponse.toList := mem_of_mem_jsTrim h2
    have h4 := List.of_mem_filter h3
    simp at h4
    exact ⟨h4.1.1, h4.1.2, h4.2⟩

/-- Witness for C5 on a concrete response containing tabs, braces and blank
lines. -/
theorem c5_witness :
    ("a" ∈ Context.asArray ctxLines) ∧
    ("a" ≠ "" ∧ ∀ ch ∈ ("a" : String).toList, ch ≠ '\t' ∧ ch ≠ '\x7b' ∧ ch ≠ '\x7d') :=
  ⟨by decide, (c5_asArray_pipeline ctxLines).2 "a" (by decide)⟩

/-- C6: `asMap()` is built from `asArray()` by keeping only the lines
containing the substring `handle`, splitting each on the pattern
whitespace-`#`-whitespace-`handle`-whitespace, and — exactly when the split
yields more than one part — storing an entry keyed by the second part with
the first part as value; lines not matching contribute no entry. -/
theorem c6_asMap_construction (c : Context) :
    Context.asMap c = Context.asMapSpec c := by
  unfold Context.asMap Context.asMapSpec
  rw [foldl_filter_guard]
  have hstep : asMapStep =
      fun b a => if containsSeq handlePat a.toList then asMapSpecStep b a else b := by
    funext b a
    rfl
  rw [hstep]

/-- Witness-style evaluation for C6 (the claim theorem has no hypothesis):
on a concrete listing the construction produces the expected entries. -/
theorem c6_concrete_eval :
    Context.asMap { ctx := some nft_ctx_default,
                    lastResponse := "table ip t # handle 32\n\trule one # handle 3\nno entry here\n",
                    dryRunField := none } =
      [("32", "table ip t"), ("3", "rule one")] := by decide

end NodeLibnftables
